import Mathlib

/-!
Shallow embedding of the rust_pixel repository core, covering:
* the cell symbol codec of src/rust-pixel/src/render/cell.rs (cellsym, cellinfo,
  CELL_SYM_MAP), and
* the tetris match controller of src/games/tetris/src/model.rs (TetrisModel:
  act, handle_input, handle_timer, handle_auto).

Strings are handled through their UTF-8 byte lists; u8 arithmetic is Nat
arithmetic with explicit reductions modulo 256 where the Rust type forces a
width.  The board operations of tetris_lib (TetrisCell: move_block, help_turn,
next_block, save_block, timer_process, attacked, make_shadow) are not part of
this repository; they are modelled from the spec where marked.
-/

set_option maxRecDepth 4096

namespace RustPixel

/-- UTF-8 byte sequence of a string, as natural numbers (Rust: symbol.as_bytes()). -/
def utf8 (s : String) : List Nat :=
  (s.data.flatMap String.utf8EncodeChar).map UInt8.toNat

/-- Glyph table of cellsym: the 256 mathematical-operator characters
U+2200 through U+22FF, transcribed from the SSYM constant in cell.rs. -/
def SSYM : List String := [
    "∀", "∁", "∂", "∃", "∄", "∅", "∆", "∇", "∈", "∉", "∊", "∋", "∌", "∍", "∎", "∏", "∐", "∑",
    "−", "∓", "∔", "∕", "∖", "∗", "∘", "∙", "√", "∛", "∜", "∝", "∞", "∟", "∠", "∡", "∢", "∣",
    "∤", "∥", "∦", "∧", "∨", "∩", "∪", "∫", "∬", "∭", "∮", "∯", "∰", "∱", "∲", "∳", "∴", "∵",
    "∶", "∷", "∸", "∹", "∺", "∻", "∼", "∽", "∾", "∿", "≀", "≁", "≂", "≃", "≄", "≅", "≆", "≇",
    "≈", "≉", "≊", "≋", "≌", "≍", "≎", "≏", "≐", "≑", "≒", "≓", "≔", "≕", "≖", "≗", "≘", "≙",
    "≚", "≛", "≜", "≝", "≞", "≟", "≠", "≡", "≢", "≣", "≤", "≥", "≦", "≧", "≨", "≩", "≪", "≫",
    "≬", "≭", "≮", "≯", "≰", "≱", "≲", "≳", "≴", "≵", "≶", "≷", "≸", "≹", "≺", "≻", "≼", "≽",
    "≾", "≿", "⊀", "⊁", "⊂", "⊃", "⊄", "⊅", "⊆", "⊇", "⊈", "⊉", "⊊", "⊋", "⊌", "⊍", "⊎", "⊏",
    "⊐", "⊑", "⊒", "⊓", "⊔", "⊕", "⊖", "⊗", "⊘", "⊙", "⊚", "⊛", "⊜", "⊝", "⊞", "⊟", "⊠", "⊡",
    "⊢", "⊣", "⊤", "⊥", "⊦", "⊧", "⊨", "⊩", "⊪", "⊫", "⊬", "⊭", "⊮", "⊯", "⊰", "⊱", "⊲", "⊳",
    "⊴", "⊵", "⊶", "⊷", "⊸", "⊹", "⊺", "⊻", "⊼", "⊽", "⊾", "⊿", "⋀", "⋁", "⋂", "⋃", "⋄", "⋅",
    "⋆", "⋇", "⋈", "⋉", "⋊", "⋋", "⋌", "⋍", "⋎", "⋏", "⋐", "⋑", "⋒", "⋓", "⋔", "⋕", "⋖", "⋗",
    "⋘", "⋙", "⋚", "⋛", "⋜", "⋝", "⋞", "⋟", "⋠", "⋡", "⋢", "⋣", "⋤", "⋥", "⋦", "⋧", "⋨", "⋩",
    "⋪", "⋫", "⋬", "⋭", "⋮", "⋯", "⋰", "⋱", "⋲", "⋳", "⋴", "⋵", "⋶", "⋷", "⋸", "⋹", "⋺", "⋻",
    "⋼", "⋽", "⋾", "⋿"]

/-- Embedding of cellsym from cell.rs: index the 256-entry glyph table with a
u8 index (the mod 256 expresses the u8 domain of idx; for idx < 256 it is the
identity). -/
def cellsym (idx : Nat) : String :=
  SSYM.getD (idx % 256) ""

/-- Embedding of the HashMap::insert semantics used to build CELL_SYM_MAP:
a later insert of the same key overwrites the earlier one. -/
def mapInsert (m : List (String × Nat)) (k : String) (v : Nat) : List (String × Nat) :=
  (k, v) :: m.filter (fun p => p.1 != k)

/-- Embedding of HashMap lookup over the association list. -/
def mapGet : List (String × Nat) -> String -> Option Nat
  | [], _ => none
  | (k, v) :: rest, s => if k = s then some v else mapGet rest s

/-- The static symbol map CELL_SYM_MAP of cell.rs: twelve box-drawing entries
from HashMap::from, then every char of the syms string inserted with its
enumeration index (i as u8; each index is at most 92 so mod 256 is identity). -/
def CELL_SYM_MAP : List (String × Nat) :=
  let init : List (String × Nat) :=
    [("▇", 209), ("▒", 94), ("∙", 122), ("│", 93),
     ("┐", 110), ("╮", 73), ("┌", 112), ("╭", 85),
     ("└", 109), ("╰", 74), ("┘", 125), ("╯", 75)]
  let syms := "@abcdefghijklmnopqrstuvwxyz[£]↑← !\"#$%&\x27()*+,-./0123456789:;<=>?─ABCDEFGHIJKLMNOPQRSTUVWXYZ┼"
  syms.data.enum.foldl (fun sm p => mapInsert sm p.2.toString (p.1 % 256)) init

/-- The reserved-range test of cellinfo: a 3-byte UTF-8 encoding whose first
byte is 0xe2 and whose second byte shifted right by 2 equals 0x22. -/
def reservedRange (sbts : List Nat) : Bool :=
  sbts.length == 3 && sbts.getD 0 0 == 0xe2 && (sbts.getD 1 0) >>> 2 == 0x22

/-- Embedding of cellinfo from cell.rs: on a reserved-range glyph, bit-extract
the index from the second and third UTF-8 bytes (2 bits and 6 bits); otherwise
look the symbol up in CELL_SYM_MAP, defaulting to 0.  The u8 sum cannot exceed
255 (192 + 63), so the trailing mod 256 only records the u8 result type. -/
def cellinfo (symbol : String) : Nat :=
  let sbts := utf8 symbol
  if reservedRange sbts then
    ((((sbts.getD 1 0) &&& 3) <<< 6) + ((sbts.getD 2 0) &&& 0x3f)) % 256
  else
    match mapGet CELL_SYM_MAP symbol with
    | some idx => idx
    | none => 0

example : cellinfo (cellsym 0) = 0 := by decide
example : cellinfo (cellsym 255) = 255 := by decide
example : cellinfo (cellsym 93) = 93 := by decide
example : (CELL_SYM_MAP.length) = 104 := by decide
example : mapGet CELL_SYM_MAP "A" = some 65 := by decide
example : mapGet CELL_SYM_MAP "zz" = none := by decide

/-- Claim C1: for every index i in [0,256), encoding the glyph produced by
decoding i yields i back: cellinfo (cellsym i) = i. -/
theorem cellinfo_cellsym_roundtrip : ∀ i < 256, cellinfo (cellsym i) = i := by decide

/-- Witness for C1 at the concrete index 137. -/
theorem cellinfo_cellsym_roundtrip_witness : cellinfo (cellsym 137) = 137 :=
  cellinfo_cellsym_roundtrip 137 (by decide)

/-- Helper: a successful mapGet lookup returns one of the stored values. -/
theorem mapGet_bound : ∀ (l : List (String × Nat)) (s : String) (v : Nat),
    (∀ p ∈ l, p.2 < 256) → mapGet l s = some v → v < 256 := by
  intro l
  induction l with
  | nil => intro s v _ hm; simp [mapGet] at hm
  | cons hd tl ih =>
    intro s v h hm
    simp only [mapGet] at hm
    split at hm
    · cases hm; exact h hd (by simp)
    · exact ih s v (fun p hp => h p (by simp [hp])) hm

/-- Helper: every value stored in CELL_SYM_MAP fits in a u8. -/
theorem cell_sym_map_values_lt : ∀ p ∈ CELL_SYM_MAP, p.2 < 256 := by
  have h : CELL_SYM_MAP.all (fun p => decide (p.2 < 256)) = true := by decide
  intro p hp
  exact of_decide_eq_true (List.all_eq_true.mp h p hp)

/-- Claim C10: the symbol codec is total: the glyph table of cellsym has
exactly 256 entries so every u8 index is in bounds; cellinfo returns a u8
for every input string; and a glyph that is neither in the reserved range
(a check that also guards the byte indexing behind the length-3 test) nor
in the static lookup table maps to 0. -/
theorem codec_totality :
    SSYM.length = 256
    ∧ (∀ idx : Nat, idx % 256 < SSYM.length)
    ∧ (∀ s : String, cellinfo s < 256)
    ∧ (∀ s : String, reservedRange (utf8 s) = false →
        mapGet CELL_SYM_MAP s = none → cellinfo s = 0) := by
  refine ⟨by decide, ?_, ?_, ?_⟩
  · intro idx
    have h : SSYM.length = 256 := by decide
    rw [h]
    exact Nat.mod_lt _ (by norm_num)
  · intro s
    simp only [cellinfo]
    split
    · exact Nat.mod_lt _ (by norm_num)
    · split
      · next idx h => exact mapGet_bound CELL_SYM_MAP s idx cell_sym_map_values_lt h
      · norm_num
  · intro s h1 h2
    simp [cellinfo, h1, h2]

/-- Witness for C10 at the concrete two-byte string "zz", which is neither a
reserved-range glyph nor a key of the static table. -/
theorem codec_totality_witness : cellinfo "zz" = 0 :=
  codec_totality.2.2.2 "zz" (by decide) (by decide)


/-! ## Tetris match controller (src/games/tetris/src/model.rs)

The controller code below (TetrisModel, act, handle_input, handle_timer,
handle_auto) is translated from model.rs.  The per-board operations of
tetris_lib (TetrisCell and its methods) and the engine utilities (Rand,
timer_fire, event_emit) are not part of this repository; definitions marked
`Modelled from the spec:` reconstruct them from spec.md.  Floating point
accumulators (f32) are modelled as rationals; u64 arithmetic carries an
explicit reduction modulo 2 ^ 64. -/

/-- Modelled from the spec: the command vocabulary of tetris_lib::cell::Move
as used by model.rs (movement, rotation, drops, hold, restart). -/
inductive Move where
  | TurnCw
  | TurnCcw
  | DropDown
  | Down
  | Left
  | Right
  | Save
  | Restart
  deriving DecidableEq, Repr

/-- Modelled from the spec: the move-result taxonomy of tetris_lib
(section 7 of the spec): accepted, rejected, or rejected-downward. -/
inductive MoveRet where
  | Normal
  | Blocked
  | ReachBottom
  deriving DecidableEq, Repr

/-- Modelled from the spec: grid width (constant.rs is not in the sources). -/
def GRIDW : Nat := 10

/-- Modelled from the spec: grid height (constant.rs is not in the sources). -/
def GRIDH : Nat := 20

/-- Modelled from the spec: length of the shared block queue (the BLKQUEUE
constant of constant.rs, which is not in the sources). -/
def BLKQUEUE : Nat := 20

/-- Modelled from the spec: a falling piece: shape kind, rotation index and
anchor position (column, row), row 0 at the top. -/
structure Piece where
  kind : Nat
  rot : Nat
  x : Int
  y : Int
  deriving DecidableEq, Repr

/-- Modelled from the spec: base offsets of the seven tetromino shapes. -/
def baseShape : Nat → List (Int × Int)
  | 0 => [(0, 0), (1, 0), (2, 0), (3, 0)]
  | 1 => [(0, 0), (1, 0), (0, 1), (1, 1)]
  | 2 => [(0, 0), (1, 0), (2, 0), (1, 1)]
  | 3 => [(1, 0), (2, 0), (0, 1), (1, 1)]
  | 4 => [(0, 0), (1, 0), (1, 1), (2, 1)]
  | 5 => [(0, 0), (0, 1), (1, 1), (2, 1)]
  | _ => [(2, 0), (0, 1), (1, 1), (2, 1)]

/-- Modelled from the spec: one quarter-turn of a relative offset. -/
def rotOnce (p : Int × Int) : Int × Int := (p.2, -p.1)

/-- Modelled from the spec: the fixed table of relative block offsets per
rotation state, as repeated quarter-turns of the base shape. -/
def blockOffsets (kind rot : Nat) : List (Int × Int) :=
  (List.range (rot % 4)).foldl (fun l _ => l.map rotOnce) (baseShape (kind % 7))

/-- Modelled from the spec: the absolute cells covered by a piece. -/
def pieceCells (p : Piece) : List (Int × Int) :=
  (blockOffsets p.kind p.rot).map (fun o => (p.x + o.1, p.y + o.2))

/-- Modelled from the spec: collision test for one cell: the side and bottom
walls and occupied grid cells collide; space above the top row is free. -/
def cellOccupied (grid : List (List Bool)) (x y : Int) : Bool :=
  if x < 0 ∨ (GRIDW : Int) ≤ x ∨ (GRIDH : Int) ≤ y then true
  else if y < 0 then false
  else (grid.getD y.toNat []).getD x.toNat false

/-- Modelled from the spec: a piece placement is valid when none of its cells
collides. -/
def pieceFits (grid : List (List Bool)) (p : Piece) : Bool :=
  (pieceCells p).all (fun c => !cellOccupied grid c.1 c.2)

/-- Modelled from the spec: per-board core state: grid, current piece, shadow
piece, held piece slot, one-swap-per-drop flag, position in the shared queue,
game-over flag and the pending attack payload (attack[0], attack[1]). -/
structure TetrisCore where
  grid : List (List Bool)
  curPiece : Piece
  shadow : Piece
  saved : Option Nat
  canSave : Bool
  blockIndex : Nat
  game_over : Bool
  attack : Nat × Nat
  deriving DecidableEq, Repr

/-- Modelled from the spec: one board, tagged with its index. -/
structure TetrisCell where
  index : Nat
  core : TetrisCore
  deriving DecidableEq, Repr

/-- Modelled from the spec: an empty grid row. -/
def emptyRow : List Bool := (List.range GRIDW).map (fun _ => false)

/-- Modelled from the spec: the empty grid. -/
def emptyGrid : List (List Bool) := (List.range GRIDH).map (fun _ => emptyRow)

/-- Modelled from the spec: spawn position of a new piece of the given kind. -/
def spawnPiece (kind : Nat) : Piece :=
  { kind := kind % 7, rot := 0, x := 3, y := 0 }

/-- Modelled from the spec: the translated or rotated candidate piece for a
movement command; commands that do not move the piece leave it unchanged. -/
def movedPiece (p : Piece) (d : Move) : Piece :=
  match d with
  | Move.Down => { p with y := p.y + 1 }
  | Move.Left => { p with x := p.x - 1 }
  | Move.Right => { p with x := p.x + 1 }
  | Move.TurnCw => { p with rot := (p.rot + 1) % 4 }
  | Move.TurnCcw => { p with rot := (p.rot + 3) % 4 }
  | _ => p

/-- Modelled from the spec: tetris_lib TetrisCell::move_block: attempt the
move; on collision the board is unchanged and the result is Blocked, except
that a rejected downward move reports ReachBottom. -/
def move_block (c : TetrisCell) (d : Move) (_flag : Bool) : TetrisCell × MoveRet :=
  let p := movedPiece c.core.curPiece d
  if pieceFits c.core.grid p then
    ({ c with core := { c.core with curPiece := p } }, MoveRet.Normal)
  else if d = Move.Down then (c, MoveRet.ReachBottom)
  else (c, MoveRet.Blocked)

/-- Modelled from the spec: straight-down projection of a piece to the lowest
valid row (the ghost position). -/
def shadowDrop (grid : List (List Bool)) (p : Piece) : Piece :=
  (List.range (GRIDH + 4)).foldl
    (fun q _ => if pieceFits grid { q with y := q.y + 1 } then { q with y := q.y + 1 } else q) p

/-- Modelled from the spec: tetris_lib TetrisCell::make_shadow: recompute the
shadow piece from the current piece. -/
def make_shadow (c : TetrisCell) : TetrisCell :=
  { c with core := { c.core with shadow := shadowDrop c.core.grid c.core.curPiece } }

/-- Modelled from the spec: the horizontal nudge encoded by a wall-kick
command string. -/
def nudgeOffset (cmd : String) : Int :=
  if cmd = "L" then -1
  else if cmd = "LL" then -2
  else if cmd = "R" then 1
  else if cmd = "RR" then 2
  else 0

/-- Modelled from the spec: tetris_lib TetrisCell::help_turn: nudge the piece
horizontally by the commanded offset and retry the rotation there; on success
commit the nudged rotation and recompute the shadow, on failure leave the
board unchanged. -/
def help_turn (c : TetrisCell) (d : Move) (cmd : String) : TetrisCell × Bool :=
  let p0 := c.core.curPiece
  let p := movedPiece { p0 with x := p0.x + nudgeOffset cmd } d
  if pieceFits c.core.grid p then
    (make_shadow { c with core := { c.core with curPiece := p } }, true)
  else (c, false)

/-- Modelled from the spec: write one cell of the grid. -/
def setGridCell (grid : List (List Bool)) (x y : Int) (v : Bool) : List (List Bool) :=
  if 0 ≤ x ∧ x < (GRIDW : Int) ∧ 0 ≤ y ∧ y < (GRIDH : Int) then
    grid.set y.toNat ((grid.getD y.toNat []).set x.toNat v)
  else grid

/-- Modelled from the spec: stamp the piece into the grid. -/
def placePiece (grid : List (List Bool)) (p : Piece) : List (List Bool) :=
  (pieceCells p).foldl (fun g c => setGridCell g c.1 c.2 true) grid

/-- Modelled from the spec: remove completed rows, shift the rows above down
by prepending fresh empty rows, and report how many rows were cleared. -/
def clearLines (grid : List (List Bool)) : List (List Bool) × Nat :=
  let remaining := grid.filter (fun row => !row.all id)
  let n := grid.length - remaining.length
  ((List.range n).map (fun _ => emptyRow) ++ remaining, n)

/-- Modelled from the spec: tetris_lib TetrisCell::next_block (the lock path):
stamp the current piece, clear completed rows, record the attack payload
proportional to the rows cleared, pull the next piece kind from the shared
queue, and set game-over when the spawned piece immediately collides. -/
def next_block (c : TetrisCell) (queue : List Nat) (_a _b : Bool) : TetrisCell :=
  let g1 := placePiece c.core.grid c.core.curPiece
  let cleared := clearLines g1
  let p := spawnPiece (queue.getD (c.core.blockIndex % BLKQUEUE) 0)
  make_shadow
    { c with
      core :=
        { grid := cleared.1
          curPiece := p
          shadow := p
          saved := c.core.saved
          canSave := true
          blockIndex := c.core.blockIndex + 1
          game_over := !pieceFits cleared.1 p
          attack := (cleared.2, cleared.2) } }

/-- Modelled from the spec: tetris_lib TetrisCell::save_block: swap the
current piece with the held slot (or fill an empty held slot and pull the
next piece from the queue); allowed at most once between locks. -/
def save_block (c : TetrisCell) (queue : List Nat) (_a : Bool) : TetrisCell :=
  if !c.core.canSave then c
  else
    match c.core.saved with
    | some k =>
        { c with
          core :=
            { c.core with
              curPiece := spawnPiece k
              saved := some (c.core.curPiece.kind)
              canSave := false } }
    | none =>
        { c with
          core :=
            { c.core with
              curPiece := spawnPiece (queue.getD (c.core.blockIndex % BLKQUEUE) 0)
              saved := some (c.core.curPiece.kind)
              blockIndex := c.core.blockIndex + 1
              canSave := false } }

/-- Modelled from the spec: tetris_lib TetrisCell::timer_process: the
timer-driven auto-fall: one downward move, locking when the bottom is
reached. -/
def timer_process (c : TetrisCell) (queue : List Nat) : TetrisCell :=
  let r := move_block c Move.Down false
  if r.2 = MoveRet.ReachBottom then next_block r.1 queue false false else r.1

/-- Modelled from the spec: the engine random generator (util::Rand).  The
wall clock read by srand_now is carried as a clock field of the state so the
generator stays a deterministic function of its state. -/
structure Rand where
  s : Nat
  clock : Nat
  deriving DecidableEq, Repr

/-- Modelled from the spec: deterministic reseeding. -/
def Rand.srand (r : Rand) (seed : Nat) : Rand := { r with s := seed % 2 ^ 64 }

/-- Modelled from the spec: reseeding combined with a time-derived nonce. -/
def Rand.srand_now (r : Rand) : Rand := { r with s := (r.s + r.clock) % 2 ^ 64 }

/-- Modelled from the spec: one step of the generator (a 64-bit LCG). -/
def randStep (r : Rand) : Nat × Rand :=
  let s := (r.s * 6364136223846793005 + 1442695040888963407) % 2 ^ 64
  (s / 2 ^ 33, { r with s := s })

/-- Modelled from the spec: one random garbage row with a randomized gap. -/
def garbageRow (r : Rand) : List Bool × Rand :=
  let v := randStep r
  ((List.range GRIDW).map (fun j => decide (j ≠ v.1 % GRIDW)), v.2)

/-- Modelled from the spec: tetris_lib TetrisCell::attacked: insert attack[0]
garbage rows at the bottom of the grid, shifting existing rows up; when an
occupied cell is pushed above the top boundary the board becomes game-over.
The attack-strength code attack[1] is accepted but does not change the row
count. -/
def attacked (c : TetrisCell) (r : Rand) (a0 _a1 : Nat) : TetrisCell × Rand :=
  let rows := (List.range a0).foldl
    (fun (acc : List (List Bool) × Rand) _ =>
      let g := garbageRow acc.2
      (acc.1 ++ [g.1], g.2)) ([], r)
  let overflow := (c.core.grid.take a0).any (fun row => row.any id)
  ({ c with
     core :=
       { c.core with
         grid := c.core.grid.drop a0 ++ rows.1
         game_over := c.core.game_over || overflow } }, rows.2)

/-- Modelled from the spec: tetris_lib TetrisCell::reset: reinitialize the
board from the freshly regenerated queue: empty grid, first queue piece
spawned, flags and counters cleared. -/
def TetrisCell.reset (c : TetrisCell) (queue : List Nat) : TetrisCell :=
  let p := spawnPiece (queue.getD 0 0)
  make_shadow
    { index := c.index
      core :=
        { grid := emptyGrid
          curPiece := p
          shadow := p
          saved := none
          canSave := true
          blockIndex := 1
          game_over := false
          attack := (0, 0) } }

/-- Modelled from the spec: the heuristic AI state: the placement it is
working toward and the remaining one-step commands of its plan. -/
structure TetrisAi where
  work2idx : Int
  plan : List Char
  deriving DecidableEq, Repr

/-- Modelled from the spec: tetris_lib TetrisAi::get_ai_act: emit one step of
the plan per decision tick (S, T, W, L or R); the spec describes the board
arguments as read-only evaluation inputs, so only the AI state advances. -/
def TetrisAi.get_ai_act (ai : TetrisAi) (_queue : List Nat) (_cell : TetrisCell) :
    Char × TetrisAi :=
  match ai.plan with
  | [] => ('N', ai)
  | c :: rest => (c, { ai with plan := rest })

/-- External effects the controller requests from the engine: one-shot named
timers (timer_fire) and broadcast events (event_emit). -/
inductive Effect where
  | timerFire (name : String) (delay : Nat)
  | emitEvent (name : String)
  deriving DecidableEq, Repr

/-- Key codes delivered by the event system (rust_pixel::event::KeyCode). -/
inductive KeyCode where
  | Char (c : Char)
  | Other
  deriving DecidableEq, Repr

/-- Input events delivered by the event system (rust_pixel::event::Event). -/
inductive Event where
  | Key (code : KeyCode)
  | Other
  deriving DecidableEq, Repr

/-- The part of rust_pixel::context::Context that model.rs touches: the
pending input-event queue. -/
structure Context where
  input_events : List Event
  deriving DecidableEq, Repr

/-- The match controller state of model.rs: two boards, the shared block
queue, the shared random generator, the AI and the two time accumulators
(f32 in the source, rationals here). -/
structure TetrisModel where
  cell0 : TetrisCell
  cell1 : TetrisCell
  block_queue : List Nat
  trand : Rand
  tai : TetrisAi
  timeout_auto : Rat
  timeout_ai : Rat
  deriving DecidableEq, Repr

/-- Reading self.cells[index] for the two valid indices. -/
def TetrisModel.getCell (m : TetrisModel) (i : Nat) : TetrisCell :=
  if i = 0 then m.cell0 else m.cell1

/-- Writing self.cells[index] for the two valid indices. -/
def TetrisModel.setCell (m : TetrisModel) (i : Nat) (c : TetrisCell) : TetrisModel :=
  if i = 0 then { m with cell0 := c } else { m with cell1 := c }

/-- Embedding of TetrisModel::random_block_queue: reseed from the seed and
the time nonce, then fill every slot of the queue with rand() mod 7. -/
def random_block_queue (m : TetrisModel) (seed : Nat) : TetrisModel :=
  let r0 := (m.trand.srand seed).srand_now
  let q := (List.range BLKQUEUE).foldl
    (fun (acc : List Nat × Rand) _ =>
      let v := randStep acc.2
      (acc.1 ++ [v.1 % 7], v.2)) ([], r0)
  { m with block_queue := q.1, trand := q.2 }

/-- Embedding of TetrisModel::reset: regenerate the shared queue with seed 0,
reset both boards from the new queue, and emit Tetris.RedrawGrid. -/
def TetrisModel.reset (m : TetrisModel) : TetrisModel × List Effect :=
  let m1 := random_block_queue m 0
  ({ m1 with
     cell0 := m1.cell0.reset m1.block_queue
     cell1 := m1.cell1.reset m1.block_queue }, [Effect.emitEvent "Tetris.RedrawGrid"])

/-- Embedding of the wall-kick loop in act: try the commands in order and
stop at the first help_turn that succeeds. -/
def helpTurnLoop (m : TetrisModel) (index : Nat) (d : Move) : List String → TetrisModel
  | [] => m
  | cmd :: rest =>
    let r := help_turn (m.getCell index) d cmd
    if r.2 then m.setCell index r.1 else helpTurnLoop m index d rest

/-- Embedding of TetrisModel::act from model.rs.  Restart runs reset first;
then any game-over board makes the command a no-op; otherwise the command is
dispatched to board `index`.  DropDown only fires the zero-delay per-board
fall timer (dump_debug and logging are omitted as pure diagnostics). -/
def act (m : TetrisModel) (index : Nat) (d : Move) : TetrisModel × List Effect :=
  let start := if d = Move.Restart then m.reset else (m, [])
  let m0 := start.1
  let effs := start.2
  if m0.cell0.core.game_over ∨ m0.cell1.core.game_over then (m0, effs)
  else
    match d with
    | Move.TurnCw | Move.TurnCcw =>
      let r := move_block (m0.getCell index) d false
      if r.2 = MoveRet.Normal then (m0.setCell index (make_shadow r.1), effs)
      else (helpTurnLoop (m0.setCell index r.1) index d ["L", "LL", "R", "RR"], effs)
    | Move.DropDown =>
      (m0, effs ++ [Effect.timerFire ("fall" ++ toString index) 0])
    | Move.Down =>
      let r := move_block (m0.getCell index) d false
      if r.2 = MoveRet.ReachBottom then
        (m0.setCell index (next_block r.1 m0.block_queue false false), effs)
      else (m0.setCell index r.1, effs)
    | Move.Left | Move.Right =>
      let r := move_block (m0.getCell index) d false
      (m0.setCell index (make_shadow r.1), effs)
    | Move.Save =>
      (m0.setCell index (make_shadow (save_block (m0.getCell index) m0.block_queue false)), effs)
    | Move.Restart => (m0, effs)

/-- The key-to-command translation table of handle_input. -/
def keyToMove (k : KeyCode) : Option Move :=
  match k with
  | KeyCode.Char ' ' => some Move.DropDown
  | KeyCode.Char 'o' => some Move.TurnCcw
  | KeyCode.Char 'i' => some Move.TurnCw
  | KeyCode.Char 'j' => some Move.Left
  | KeyCode.Char 'k' => some Move.Down
  | KeyCode.Char 'l' => some Move.Right
  | KeyCode.Char 's' => some Move.Save
  | KeyCode.Char 'r' => some Move.Restart
  | _ => none

/-- Embedding of the event loop of handle_input: each recognized key event is
dispatched to board 0 through act; the returned list records the dispatched
(board index, command) pairs in order. -/
def drain_events (m : TetrisModel) : List Event → TetrisModel × List (Nat × Move)
  | [] => (m, [])
  | e :: rest =>
    match e with
    | Event.Key key =>
      match keyToMove key with
      | some d =>
        let m1 := (act m 0 d).1
        let r := drain_events m1 rest
        (r.1, (0, d) :: r.2)
      | none => drain_events m rest
    | _ => drain_events m rest

/-- Embedding of Model::handle_input from model.rs: drain and translate every
pending input event, then clear the event queue. -/
def handle_input (m : TetrisModel) (ctx : Context) :
    TetrisModel × Context × List (Nat × Move) :=
  let r := drain_events m ctx.input_events
  (r.1, { input_events := [] }, r.2)

/-- Trace events of one handle_timer call, recording the order of the
per-board duties. -/
inductive TimerEv where
  | processed (i : Nat)
  | applied (target : Nat) (a0 a1 : Nat)
  | shadowed (target : Nat)
  | cleared (i : Nat)
  deriving DecidableEq, Repr

/-- Clearing attack[0] on the source board (attack[1] is kept). -/
def clearAttack0 (c : TetrisCell) : TetrisCell :=
  { c with core := { c.core with attack := (0, c.core.attack.2) } }

/-- Embedding of one iteration of the handle_timer loop of model.rs: skip a
game-over board; otherwise run its timer processing, and if its attack[0] is
then non-zero, apply the payload to the other board, recompute the other
board shadow, and zero attack[0]. -/
def timerStep (m : TetrisModel) (i : Nat) : TetrisModel × List TimerEv :=
  if (m.getCell i).core.game_over then (m, [])
  else
    let m1 := m.setCell i (timer_process (m.getCell i) m.block_queue)
    let a := (m1.getCell i).core.attack
    if a.1 ≠ 0 then
      let t := attacked (m1.getCell (1 - i)) m1.trand a.1 a.2
      let m2 := { m1 with trand := t.2 }
      let m3 := m2.setCell (1 - i) (make_shadow t.1)
      let m4 := m3.setCell i (clearAttack0 (m3.getCell i))
      (m4, [TimerEv.processed i, TimerEv.applied (1 - i) a.1 a.2,
            TimerEv.shadowed (1 - i), TimerEv.cleared i])
    else (m1, [TimerEv.processed i])

/-- Embedding of Model::handle_timer from model.rs: the loop over boards 0
and 1, accumulating the trace. -/
def handle_timer (m : TetrisModel) : TetrisModel × List TimerEv :=
  [0, 1].foldl
    (fun (p : TetrisModel × List TimerEv) i =>
      let r := timerStep p.1 i
      (r.1, p.2 ++ r.2)) (m, [])

/-- The AI character-to-command translation table of handle_auto. -/
def aiCharToMove (c : Char) : Option Move :=
  match c with
  | 'S' => some Move.Save
  | 'T' => some Move.TurnCw
  | 'W' => some Move.DropDown
  | 'L' => some Move.Left
  | 'R' => some Move.Right
  | _ => none

/-- Embedding of the leading AI poll of handle_auto: when work2idx is
non-negative the AI is stepped and its answer discarded. -/
def ai_peek (m : TetrisModel) : TetrisModel :=
  if 0 ≤ m.tai.work2idx then
    { m with tai := (m.tai.get_ai_act m.block_queue m.cell1).2 }
  else m

/-- Embedding of the auto-fall branch of handle_auto: past the 0.4 threshold
(the f32 constant 0.4, written as the exact rational 2/5 here) the
accumulator resets to zero and one Down is dispatched to board 0; otherwise
dt is accumulated (dump_debug is omitted as pure diagnostics). -/
def auto_fall_step (m : TetrisModel) (dt : Rat) : TetrisModel × List (Nat × Move) :=
  if m.timeout_auto > mkRat 2 5 then
    ((act { m with timeout_auto := 0 } 0 Move.Down).1, [(0, Move.Down)])
  else ({ m with timeout_auto := m.timeout_auto + dt }, [])

/-- Embedding of the AI branch of handle_auto: past the 0.1 threshold the
accumulator resets to zero, the AI chooses one character, and the translated
command (if any) is dispatched to board 1 (the f32 threshold 0.1 is written
as the exact rational 1/10); otherwise dt is accumulated. -/
def ai_decide_step (m : TetrisModel) (dt : Rat) : TetrisModel × List (Nat × Move) :=
  if m.timeout_ai > mkRat 1 10 then
    let m1 := { m with timeout_ai := 0 }
    let g := m1.tai.get_ai_act m1.block_queue m1.cell1
    let m2 := { m1 with tai := g.2 }
    match aiCharToMove g.1 with
    | some d => ((act m2 1 d).1, [(1, d)])
    | none => (m2, [])
  else ({ m with timeout_ai := m.timeout_ai + dt }, [])

/-- Embedding of Model::handle_auto from model.rs: the AI poll, then the
auto-fall branch, then the AI decision branch, with the dispatched
(board index, command) pairs recorded in order. -/
def handle_auto (m : TetrisModel) (dt : Rat) : TetrisModel × List (Nat × Move) :=
  let m0 := ai_peek m
  let a := auto_fall_step m0 dt
  let b := ai_decide_step a.1 dt
  (b.1, a.2 ++ b.2)

/-! ### Example states used by witnesses and counterexamples -/

/-- A sample shared block queue. -/
def exQueue : List Nat :=
  [1, 2, 3, 4, 5, 6, 0, 1, 2, 3, 4, 5, 6, 0, 1, 2, 3, 4, 5, 6]

/-- An O piece in mid-air. -/
def exPieceAir : Piece := { kind := 1, rot := 0, x := 3, y := 4 }

/-- An O piece resting on the floor: a downward move is rejected. -/
def exPieceBottom : Piece := { kind := 1, rot := 0, x := 3, y := 18 }

/-- A vertical I piece hugging the left wall: rotating in place collides and
every horizontal nudge also fails. -/
def exPieceWall : Piece := { kind := 0, rot := 1, x := 0, y := 5 }

/-- A board over an empty grid with the given index, piece, game-over flag
and pending attack payload. -/
def mkCell (i : Nat) (p : Piece) (go : Bool) (atk : Nat × Nat) : TetrisCell :=
  { index := i
    core :=
      { grid := emptyGrid, curPiece := p, shadow := p, saved := none,
        canSave := true, blockIndex := 1, game_over := go, attack := atk } }

/-- A match state over the two given boards. -/
def exModel (c0 c1 : TetrisCell) : TetrisModel :=
  { cell0 := c0, cell1 := c1, block_queue := exQueue,
    trand := { s := 12345, clock := 999 },
    tai := { work2idx := 0, plan := ['L', 'W'] },
    timeout_auto := 0, timeout_ai := 0 }

/-- Board 1 already game over. -/
def exMOver : TetrisModel :=
  exModel (mkCell 0 exPieceAir false (0, 0)) (mkCell 1 exPieceAir true (0, 0))

/-- Both boards live, the player piece resting on the floor. -/
def exMBottom : TetrisModel :=
  exModel (mkCell 0 exPieceBottom false (0, 0)) (mkCell 1 exPieceAir false (0, 0))

example : (move_block (exMBottom.getCell 0) Move.Down false).2 = MoveRet.ReachBottom := by decide
example : (move_block (exMOver.getCell 0) Move.Down false).2 = MoveRet.Normal := by decide
example : pieceFits emptyGrid exPieceWall = true := by decide
example : (move_block (mkCell 0 exPieceWall false (0, 0)) Move.TurnCw false).2
    = MoveRet.Blocked := by decide

/-! ### Helper lemmas -/

/-- setCell never touches the auto-fall accumulator. -/
@[simp] theorem setCell_timeout_auto (m : TetrisModel) (i : Nat) (c : TetrisCell) :
    (m.setCell i c).timeout_auto = m.timeout_auto := by
  unfold TetrisModel.setCell; split <;> rfl

/-- setCell never touches the AI accumulator. -/
@[simp] theorem setCell_timeout_ai (m : TetrisModel) (i : Nat) (c : TetrisCell) :
    (m.setCell i c).timeout_ai = m.timeout_ai := by
  unfold TetrisModel.setCell; split <;> rfl

/-- Writing back the cell just read is the identity. -/
@[simp] theorem setCell_getCell (m : TetrisModel) (i : Nat) :
    m.setCell i (m.getCell i) = m := by
  unfold TetrisModel.setCell TetrisModel.getCell; split <;> rfl

/-- A rejected move_block leaves the board unchanged. -/
theorem move_block_reject (c : TetrisCell) (d : Move) (f : Bool)
    (h : (move_block c d f).2 ≠ MoveRet.Normal) : (move_block c d f).1 = c := by
  simp only [move_block] at h ⊢
  by_cases hf : pieceFits c.core.grid (movedPiece c.core.curPiece d) = true
  · simp [hf] at h
  · by_cases hd : d = Move.Down
    · subst hd; simp [hf]
    · simp [hf, hd]

/-- The wall-kick loop never touches the accumulators. -/
theorem helpTurnLoop_timeout (m : TetrisModel) (i : Nat) (d : Move) (l : List String) :
    (helpTurnLoop m i d l).timeout_auto = m.timeout_auto
    ∧ (helpTurnLoop m i d l).timeout_ai = m.timeout_ai := by
  induction l with
  | nil => exact ⟨rfl, rfl⟩
  | cons cmd rest ih =>
    by_cases h : (help_turn (m.getCell i) d cmd).2 = true
    · simp [helpTurnLoop, h]
    · simpa [helpTurnLoop, h] using ih

/-- random_block_queue never touches the accumulators. -/
theorem random_block_queue_timeout (m : TetrisModel) (s : Nat) :
    (random_block_queue m s).timeout_auto = m.timeout_auto
    ∧ (random_block_queue m s).timeout_ai = m.timeout_ai := by
  constructor <;> simp only [random_block_queue]

/-- reset never touches the accumulators. -/
theorem reset_timeout (m : TetrisModel) :
    (TetrisModel.reset m).1.timeout_auto = m.timeout_auto
    ∧ (TetrisModel.reset m).1.timeout_ai = m.timeout_ai := by
  constructor <;> simp only [TetrisModel.reset, random_block_queue]

/-- act never touches the accumulators. -/
theorem act_timeout (m : TetrisModel) (i : Nat) (d : Move) :
    (act m i d).1.timeout_auto = m.timeout_auto
    ∧ (act m i d).1.timeout_ai = m.timeout_ai := by
  unfold act
  cases d <;>
    simp only [reduceCtorEq, if_false, if_true, reduceIte] <;>
    split <;>
    (try split) <;>
    simp [helpTurnLoop_timeout, reset_timeout]

/-! ### Claim C5 -/

/-- Claim C5: with a game-over board, any command other than Restart is a
silent no-op of the whole model (no state change, no external effect);
Restart, even mid-game or after game-over, runs the full reset: it
regenerates the shared block queue and reinitializes both boards. -/
theorem act_game_over_noop_restart_resets :
    (∀ (m : TetrisModel) (index : Nat) (d : Move), d ≠ Move.Restart →
       (m.cell0.core.game_over = true ∨ m.cell1.core.game_over = true) →
       act m index d = (m, []))
    ∧ (∀ (m : TetrisModel) (index : Nat), act m index Move.Restart = m.reset) := by
  constructor
  · intro m index d hd hgo
    unfold act
    simp only [if_neg hd]
    rw [if_pos]
    · cases hgo with
      | inl h => exact Or.inl h
      | inr h => exact Or.inr h
  · intro m index
    unfold act
    simp only [if_pos rfl]
    rw [if_neg]
    · rfl
    · intro h
      cases h with
      | inl h => simp [TetrisModel.reset, TetrisCell.reset, make_shadow,
          random_block_queue] at h
      | inr h => simp [TetrisModel.reset, TetrisCell.reset, make_shadow,
          random_block_queue] at h

/-- Witness for C5: a Down command on a model whose board 1 is game over is a
no-op, and Restart on the same model reinitializes it. -/
theorem act_game_over_noop_restart_resets_witness :
    act exMOver 0 Move.Down = (exMOver, [])
    ∧ act exMOver 1 Move.Restart = exMOver.reset :=
  ⟨act_game_over_noop_restart_resets.1 exMOver 0 Move.Down (by decide)
     (Or.inr (by decide)),
   act_game_over_noop_restart_resets.2 exMOver 1⟩

/-! ### Claim C7 -/

/-- Claim C7: for every board index, the DropDown command only fires the
immediate zero-delay per-board fall timer through the external timer system
and leaves the whole model state unchanged within the act call itself; the
descent is not performed synchronously. -/
theorem dropdown_fires_timer_only :
    ∀ (m : TetrisModel) (index : Nat), index < 2 →
    m.cell0.core.game_over = false → m.cell1.core.game_over = false →
    act m index Move.DropDown
      = (m, [Effect.timerFire ("fall" ++ toString index) 0]) := by
  intro m index _ h0 h1
  unfold act
  simp [h0, h1]

/-- Witness for C7 on a live two-board state, board 0. -/
theorem dropdown_fires_timer_only_witness :
    act exMBottom 0 Move.DropDown
      = (exMBottom, [Effect.timerFire ("fall" ++ toString 0) 0]) :=
  dropdown_fires_timer_only exMBottom 0 (by decide) (by decide) (by decide)

/-! ### Claim C2 -/

/-- Counterexample to claim C2 as stated: on a live board whose piece rests
on the floor, the manual input path (the k key through handle_input, hence a
Move.Down through act) has its downward move rejected with ReachBottom, and
this alone pulls the next piece from the queue (the lock path): the board
queue position advances by one within the same call. -/
theorem manual_down_lock_counterexample :
    (move_block (exMBottom.getCell 0) Move.Down false).2 = MoveRet.ReachBottom
    ∧ ((handle_input exMBottom
          { input_events := [Event.Key (KeyCode.Char 'k')] }).1.getCell 0).core.blockIndex
        = exMBottom.cell0.core.blockIndex + 1 := by
  constructor <;> decide

/-- Claim C2 amended: a manual downward Move issued through act from the
input path whose downward move is rejected DOES by itself trigger the lock
path: act treats every rejected Down identically, whatever its origin, and
runs next_block (pulling the next piece from the queue) on the board. -/
theorem manual_down_reachbottom_locks :
    ∀ (m : TetrisModel),
    m.cell0.core.game_over = false → m.cell1.core.game_over = false →
    (move_block (m.getCell 0) Move.Down false).2 = MoveRet.ReachBottom →
    (handle_input m { input_events := [Event.Key (KeyCode.Char 'k')] }).1
      = m.setCell 0 (next_block (m.getCell 0) m.block_queue false false) := by
  intro m h0 h1 hr
  have hrej : (move_block (m.getCell 0) Move.Down false).1 = m.getCell 0 :=
    move_block_reject _ _ _ (by rw [hr]; intro hc; cases hc)
  have hact : (act m 0 Move.Down).1
      = m.setCell 0 (next_block (m.getCell 0) m.block_queue false false) := by
    unfold act
    simp [h0, h1, hr, hrej]
  simp only [handle_input, drain_events, keyToMove]
  exact hact

/-- Witness for the amended C2 on the concrete floor-resting state. -/
theorem manual_down_reachbottom_locks_witness :
    (handle_input exMBottom { input_events := [Event.Key (KeyCode.Char 'k')] }).1
      = exMBottom.setCell 0 (next_block (exMBottom.getCell 0) exMBottom.block_queue false false) :=
  manual_down_reachbottom_locks exMBottom (by decide) (by decide) (by decide)

/-! ### Claim C4 -/

/-- The wall-kick policy as claim C4 words it: try the horizontal nudges in
exactly the order single-left, double-left, single-right, double-right,
retrying the rotation after each nudge, and accept the first that succeeds;
none succeeding yields no result. -/
def firstKick (c : TetrisCell) (d : Move) : List String → Option TetrisCell
  | [] => none
  | cmd :: rest =>
    let r := help_turn c d cmd
    if r.2 then some r.1 else firstKick c d rest

/-- The wall-kick loop of act realizes the first-success policy. -/
theorem helpTurnLoop_firstKick (m : TetrisModel) (i : Nat) (d : Move) (l : List String) :
    helpTurnLoop m i d l
      = (match firstKick (m.getCell i) d l with
         | some c => m.setCell i c
         | none => m) := by
  induction l with
  | nil => rfl
  | cons cmd rest ih =>
    by_cases h : (help_turn (m.getCell i) d cmd).2 = true
    · simp [helpTurnLoop, firstKick, h]
    · simp only [helpTurnLoop, firstKick]
      rw [if_neg h, if_neg h]
      exact ih

/-- Claim C4: a rotation command whose in-place rotation is rejected makes
the board attempt horizontal nudges in exactly the order L, LL, R, RR,
retrying the rotation after each nudge and accepting the first that
succeeds; if all four fail, the model is unchanged.  No external effect is
produced either way. -/
theorem rotation_wallkick_order :
    ∀ (m : TetrisModel) (index : Nat) (d : Move),
    (d = Move.TurnCw ∨ d = Move.TurnCcw) →
    m.cell0.core.game_over = false → m.cell1.core.game_over = false →
    (move_block (m.getCell index) d false).2 ≠ MoveRet.Normal →
    act m index d
      = ((match firstKick (m.getCell index) d ["L", "LL", "R", "RR"] with
          | some c => m.setCell index c
          | none => m), []) := by
  intro m index d hd h0 h1 hrej
  have hcell : (move_block (m.getCell index) d false).1 = m.getCell index :=
    move_block_reject _ _ _ hrej
  have key : ∀ dd, dd = Move.TurnCw ∨ dd = Move.TurnCcw → dd ≠ Move.Restart := by
    intro dd hdd
    cases hdd with
    | inl h => rw [h]; intro hc; cases hc
    | inr h => rw [h]; intro hc; cases hc
  cases hd with
  | inl h =>
    subst h
    unfold act
    simp only [reduceCtorEq, if_false, reduceIte]
    rw [if_neg (by simp [h0, h1])]
    rw [if_neg hrej, hcell, setCell_getCell, helpTurnLoop_firstKick]
  | inr h =>
    subst h
    unfold act
    simp only [reduceCtorEq, if_false, reduceIte]
    rw [if_neg (by simp [h0, h1])]
    rw [if_neg hrej, hcell, setCell_getCell, helpTurnLoop_firstKick]

/-- Both boards live, the player piece a vertical I hugging the left wall. -/
def exMWall : TetrisModel :=
  exModel (mkCell 0 exPieceWall false (0, 0)) (mkCell 1 exPieceAir false (0, 0))

/-- Witness for C4 on the wall-hugging state (all four kicks fail there, so
the model is unchanged). -/
theorem rotation_wallkick_order_witness :
    act exMWall 0 Move.TurnCw
      = ((match firstKick (exMWall.getCell 0) Move.TurnCw ["L", "LL", "R", "RR"] with
          | some c => exMWall.setCell 0 c
          | none => exMWall), []) :=
  rotation_wallkick_order exMWall 0 Move.TurnCw (Or.inl rfl) (by decide) (by decide)
    (by decide)

/-! ### Claim C3 -/

/-- The attack application as claim C3 words it: read the payload of board i,
apply it exactly once to board 1-i, recompute the shadow piece of board 1-i,
and reset attack[0] of board i to zero. -/
def applyPayloadOnce (m : TetrisModel) (i : Nat) : TetrisModel × List TimerEv :=
  let payload := (m.getCell i).core.attack
  let t := attacked (m.getCell (1 - i)) m.trand payload.1 payload.2
  let m1 := ({ m with trand := t.2 }).setCell (1 - i) (make_shadow t.1)
  let m2 := m1.setCell i (clearAttack0 (m1.getCell i))
  (m2, [TimerEv.applied (1 - i) payload.1 payload.2,
        TimerEv.shadowed (1 - i), TimerEv.cleared i])

/-- The per-board timer duty as claim C3 words it: a game-over board is
skipped; otherwise the board runs its timer processing and, if its attack[0]
is non-zero after that processing, the payload exchange of applyPayloadOnce
happens before anything further. -/
def timerDutySpec (m : TetrisModel) (i : Nat) : TetrisModel × List TimerEv :=
  if (m.getCell i).core.game_over then (m, [])
  else
    let m1 := m.setCell i (timer_process (m.getCell i) m.block_queue)
    if (m1.getCell i).core.attack.1 ≠ 0 then
      let r := applyPayloadOnce m1 i
      (r.1, TimerEv.processed i :: r.2)
    else (m1, [TimerEv.processed i])

/-- The whole handle_timer call as claim C3 words it: board 0 first, then
board 1 on the resulting state, traces concatenated in that order. -/
def handleTimerSpec (m : TetrisModel) : TetrisModel × List TimerEv :=
  let r0 := timerDutySpec m 0
  let r1 := timerDutySpec r0.1 1
  (r1.1, r0.2 ++ r1.2)

/-- The loop body of handle_timer is exactly the per-board duty of the
claim. -/
theorem timerStep_eq_duty : timerStep = timerDutySpec := by
  funext m i
  unfold timerStep timerDutySpec applyPayloadOnce
  split
  · rfl
  · by_cases h : ((m.setCell i (timer_process (m.getCell i) m.block_queue)).getCell i).core.attack.1 ≠ 0
    · simp only [if_pos h]
    · simp only [if_neg h]

/-- Claim C3: within a single handle_timer call the boards are processed in
order 0 then 1; a board whose attack[0] is non-zero after its timer
processing has its payload applied exactly once to the other board, the
other board shadow then recomputed, and its own attack[0] reset to zero, all
before any further processing. -/
theorem handle_timer_attack_exchange :
    ∀ m : TetrisModel, handle_timer m = handleTimerSpec m := by
  intro m
  unfold handle_timer handleTimerSpec
  simp only [List.foldl_cons, List.foldl_nil, timerStep_eq_duty, List.nil_append]

/-! ### Claim C8 -/

/-- attacked preserves an already-set game-over flag on the target. -/
theorem attacked_keeps_game_over (c : TetrisCell) (r : Rand) (a0 a1 : Nat)
    (h : c.core.game_over = true) : ((attacked c r a0 a1).1).core.game_over = true := by
  simp only [attacked, h]
  rfl

/-- make_shadow does not change the game-over flag. -/
theorem make_shadow_game_over (c : TetrisCell) :
    (make_shadow c).core.game_over = c.core.game_over := by
  simp only [make_shadow]

/-- Reading board 0. -/
@[simp] theorem getCell_zero (m : TetrisModel) : m.getCell 0 = m.cell0 := rfl

/-- Reading board 1. -/
@[simp] theorem getCell_one (m : TetrisModel) : m.getCell 1 = m.cell1 := by
  simp [TetrisModel.getCell]

/-- Writing board 0. -/
@[simp] theorem setCell_zero (m : TetrisModel) (c : TetrisCell) :
    m.setCell 0 c = { m with cell0 := c } := rfl

/-- Writing board 1. -/
@[simp] theorem setCell_one (m : TetrisModel) (c : TetrisCell) :
    m.setCell 1 c = { m with cell1 := c } := by
  simp [TetrisModel.setCell]

/-- A game-over board is skipped by the handle_timer loop body. -/
theorem timerStep_skip (m : TetrisModel) (i : Nat)
    (h : (m.getCell i).core.game_over = true) : timerStep m i = (m, []) := by
  unfold timerStep
  rw [if_pos h]

/-- When the source board is live and its processed payload is non-zero, the
loop body rewrites the target board to the attacked-and-reshadowed cell,
without consulting the target game-over flag. -/
theorem timerStep_fire_target (m : TetrisModel) (i : Nat) (hi : i < 2)
    (h : (m.getCell i).core.game_over = false) (a : Nat × Nat)
    (ha : (timer_process (m.getCell i) m.block_queue).core.attack = a) (hne : a.1 ≠ 0) :
    (timerStep m i).1.getCell (1 - i)
      = make_shadow (attacked (m.getCell (1 - i)) m.trand a.1 a.2).1 := by
  interval_cases i
  · unfold timerStep
    simp only [getCell_zero, getCell_one, setCell_zero, setCell_one] at h ha ⊢
    rw [if_neg (by simp [h])]
    simp only [ha, ne_eq, hne, not_false_eq_true, if_true, ite_not]
    simp [hne]
  · unfold timerStep
    simp only [getCell_zero, getCell_one, setCell_zero, setCell_one] at h ha ⊢
    rw [if_neg (by simp [h])]
    simp only [ha, ne_eq, hne, not_false_eq_true, if_true, ite_not]
    simp [hne]

/-- The fired loop body leaves the target game-over flag it found. -/
theorem timerStep_fire_target_game_over (m : TetrisModel) (i : Nat) (hi : i < 2)
    (h : (m.getCell i).core.game_over = false)
    (h1 : (m.getCell (1 - i)).core.game_over = true) (a : Nat × Nat)
    (ha : (timer_process (m.getCell i) m.block_queue).core.attack = a) (hne : a.1 ≠ 0) :
    ((timerStep m i).1.getCell (1 - i)).core.game_over = true := by
  rw [timerStep_fire_target m i hi h a ha hne, make_shadow_game_over]
  exact attacked_keeps_game_over _ _ _ _ h1

/-- Claim C8: handle_timer never checks the game-over flag of the attack
target: when the source board i is live and its processed attack[0] is
non-zero, the payload is applied to board 1-i (whose cell is rewritten by
attacked and whose shadow is recomputed) even though board 1-i is already
game over; only the source board game-over flag suppresses processing. -/
theorem attack_ignores_target_game_over :
    ∀ (m : TetrisModel) (i : Nat), i < 2 →
    (m.getCell i).core.game_over = false →
    (m.getCell (1 - i)).core.game_over = true →
    ∀ a : Nat × Nat,
    (timer_process (m.getCell i) m.block_queue).core.attack = a → a.1 ≠ 0 →
    (handle_timer m).1.getCell (1 - i)
      = make_shadow (attacked (m.getCell (1 - i)) m.trand a.1 a.2).1 := by
  intro m i hi h0 h1 a ha hne
  interval_cases i
  · -- board 0 fires; board 1 (already game over) is attacked, then skipped
    have htar := timerStep_fire_target m 0 (by norm_num) h0 a ha hne
    have hskip : ((timerStep m 0).1.getCell 1).core.game_over = true := by
      have := timerStep_fire_target_game_over m 0 (by norm_num) h0 h1 a ha hne
      simpa using this
    have hht : (handle_timer m).1 = (timerStep m 0).1 := by
      unfold handle_timer
      simp only [List.foldl_cons, List.foldl_nil]
      rw [timerStep_skip _ _ hskip]
    rw [hht]
    simpa using htar
  · -- board 0 is skipped (game over); board 1 fires into it
    have hskip0 : timerStep m 0 = (m, []) := timerStep_skip m 0 (by simpa using h1)
    have htar := timerStep_fire_target m 1 (by norm_num) h0 a ha hne
    have hht : (handle_timer m).1 = (timerStep m 1).1 := by
      unfold handle_timer
      simp only [List.foldl_cons, List.foldl_nil, hskip0]
    rw [hht]
    simpa using htar

/-- Board 0 live with a pending payload (2,1) and a piece free to fall;
board 1 already game over. -/
def exM8 : TetrisModel :=
  exModel (mkCell 0 exPieceAir false (2, 1)) (mkCell 1 exPieceAir true (0, 0))

/-- Witness for C8: the pending payload of board 0 survives its timer
processing and lands on the already game-over board 1. -/
theorem attack_ignores_target_game_over_witness :
    (handle_timer exM8).1.getCell (1 - 0)
      = make_shadow (attacked (exM8.getCell (1 - 0)) exM8.trand
          ((2, 1) : Nat × Nat).1 ((2, 1) : Nat × Nat).2).1 :=
  attack_ignores_target_game_over exM8 0 (by decide) (by decide) (by decide)
    (2, 1) (by decide) (by decide)

/-! ### Claim C6 -/

/-- The AI poll never touches the accumulators. -/
theorem ai_peek_fields (m : TetrisModel) :
    (ai_peek m).timeout_auto = m.timeout_auto ∧ (ai_peek m).timeout_ai = m.timeout_ai := by
  unfold ai_peek
  split <;> exact ⟨rfl, rfl⟩

/-- The AI translation table never yields a Down command. -/
theorem aiCharToMove_ne_down (c : Char) : aiCharToMove c ≠ some Move.Down := by
  unfold aiCharToMove
  split <;> simp

/-- Every dispatch of the AI decision branch goes to board 1 and is never a
Down command. -/
theorem ai_decide_step_dispatch (m : TetrisModel) (dt : Rat) :
    ∀ p ∈ (ai_decide_step m dt).2, p.1 = 1 ∧ p.2 ≠ Move.Down := by
  unfold ai_decide_step
  split
  · dsimp only
    split
    · next d hd =>
      intro p hp
      simp only [List.mem_singleton] at hp
      subst hp
      refine ⟨rfl, ?_⟩
      intro hc
      have hdd : d = Move.Down := hc
      rw [hdd] at hd
      exact aiCharToMove_ne_down _ hd
    · intro p hp
      simp at hp
  · intro p hp
    simp at hp

/-- The AI decision branch never touches the auto-fall accumulator. -/
theorem ai_decide_step_timeout_auto (m : TetrisModel) (dt : Rat) :
    (ai_decide_step m dt).1.timeout_auto = m.timeout_auto := by
  unfold ai_decide_step
  split
  · dsimp only
    split
    · rw [(act_timeout _ _ _).1]
    · rfl
  · rfl

/-- Claim C6: in handle_auto, when the accumulator timeout_auto exceeds the
0.4 threshold it is reset to 0 and exactly one Down command is dispatched to
board 0 in that call; at most one Down is ever dispatched per call however
far dt overshoots; and when the threshold is not exceeded, dt is accumulated
and no Down is dispatched. -/
theorem handle_auto_single_down :
    ∀ (m : TetrisModel) (dt : Rat),
    (m.timeout_auto > mkRat 2 5 →
       (handle_auto m dt).1.timeout_auto = 0
       ∧ (handle_auto m dt).2.count ((0, Move.Down) : Nat × Move) = 1)
    ∧ (handle_auto m dt).2.countP (fun p => decide (p.2 = Move.Down)) ≤ 1
    ∧ (¬ m.timeout_auto > mkRat 2 5 →
       (handle_auto m dt).1.timeout_auto = m.timeout_auto + dt
       ∧ (handle_auto m dt).2.countP (fun p => decide (p.2 = Move.Down)) = 0) := by
  intro m dt
  have hpeek := ai_peek_fields m
  by_cases h : m.timeout_auto > mkRat 2 5
  · have hcond : (ai_peek m).timeout_auto > mkRat 2 5 := by rw [hpeek.1]; exact h
    have hha : handle_auto m dt
        = ((ai_decide_step (act { ai_peek m with timeout_auto := 0 } 0 Move.Down).1 dt).1,
           (0, Move.Down)
             :: (ai_decide_step (act { ai_peek m with timeout_auto := 0 } 0 Move.Down).1 dt).2) := by
      simp only [handle_auto, auto_fall_step]
      rw [if_pos hcond]
      simp
    have hdisp := ai_decide_step_dispatch
      (act { ai_peek m with timeout_auto := 0 } 0 Move.Down).1 dt
    have hcnt : (ai_decide_step (act { ai_peek m with timeout_auto := 0 } 0 Move.Down).1 dt).2.countP
        (fun p => decide (p.2 = Move.Down)) = 0 := by
      rw [List.countP_eq_zero]
      intro p hp
      simp only [decide_eq_true_eq]
      exact (hdisp p hp).2
    refine ⟨fun _ => ⟨?_, ?_⟩, ?_, fun hc => absurd h hc⟩
    · rw [hha, ai_decide_step_timeout_auto, (act_timeout _ _ _).1]
    · rw [hha]
      simp only [List.count_cons_self]
      rw [List.count_eq_zero.mpr]
      intro hmem
      have := (hdisp _ hmem).1
      simp at this
    · rw [hha, List.countP_cons]
      simp [hcnt]
  · have hcond : ¬ (ai_peek m).timeout_auto > mkRat 2 5 := by rw [hpeek.1]; exact h
    have hha : handle_auto m dt
        = ((ai_decide_step { ai_peek m with timeout_auto := (ai_peek m).timeout_auto + dt } dt).1,
           (ai_decide_step { ai_peek m with timeout_auto := (ai_peek m).timeout_auto + dt } dt).2) := by
      simp only [handle_auto, auto_fall_step]
      rw [if_neg hcond]
      simp
    have hdisp := ai_decide_step_dispatch
      { ai_peek m with timeout_auto := (ai_peek m).timeout_auto + dt } dt
    have hcnt : (ai_decide_step
          { ai_peek m with timeout_auto := (ai_peek m).timeout_auto + dt } dt).2.countP
        (fun p => decide (p.2 = Move.Down)) = 0 := by
      rw [List.countP_eq_zero]
      intro p hp
      simp only [decide_eq_true_eq]
      exact (hdisp p hp).2
    refine ⟨fun hc => absurd hc h, ?_, fun _ => ⟨?_, ?_⟩⟩
    · rw [hha]
      simp [hcnt]
    · rw [hha, ai_decide_step_timeout_auto]
      show (ai_peek m).timeout_auto + dt = m.timeout_auto + dt
      rw [hpeek.1]
    · rw [hha]
      exact hcnt

/-- Both boards live, auto-fall accumulator past the threshold. -/
def exM6 : TetrisModel :=
  { exModel (mkCell 0 exPieceAir false (0, 0)) (mkCell 1 exPieceAir false (0, 0)) with
    timeout_auto := 1 }

/-- Both boards live, auto-fall accumulator below the threshold. -/
def exM6b : TetrisModel :=
  exModel (mkCell 0 exPieceAir false (0, 0)) (mkCell 1 exPieceAir false (0, 0))

/-- Witness for C6: past the threshold one Down to board 0 is dispatched and
the accumulator resets; below the threshold dt accumulates and nothing is
dispatched. -/
theorem handle_auto_single_down_witness :
    ((handle_auto exM6 1).1.timeout_auto = 0
       ∧ (handle_auto exM6 1).2.count ((0, Move.Down) : Nat × Move) = 1)
    ∧ ((handle_auto exM6b 1).1.timeout_auto = exM6b.timeout_auto + 1
       ∧ (handle_auto exM6b 1).2.countP (fun p => decide (p.2 = Move.Down)) = 0) :=
  ⟨(handle_auto_single_down exM6 1).1 (by decide),
   (handle_auto_single_down exM6b 1).2.2 (by decide)⟩

/-! ### Claim C9 -/

/-- Every dispatch of the input drain loop goes to board 0. -/
theorem drain_events_dispatch (m : TetrisModel) (es : List Event) :
    ∀ p ∈ (drain_events m es).2, p.1 = 0 := by
  induction es generalizing m with
  | nil =>
    intro p hp
    simp [drain_events] at hp
  | cons e rest ih =>
    intro p hp
    cases e with
    | Key key =>
      cases hk : keyToMove key with
      | some d =>
        simp only [drain_events, hk, List.mem_cons] at hp
        cases hp with
        | inl hp => rw [hp]
        | inr hp => exact ih _ _ hp
      | none =>
        simp only [drain_events, hk] at hp
        exact ih _ _ hp
    | Other =>
      simp only [drain_events] at hp
      exact ih _ _ hp

/-- Claim C9: every command born from a keyboard event in handle_input is
dispatched to board 0 only; every command chosen by the AI decision branch is
dispatched to board 1 only; and any dispatch of handle_auto is either an AI
command to board 1 or the auto-fall Down to board 0 — no input path drives
the opposite board. -/
theorem dispatch_board_separation :
    (∀ (m : TetrisModel) (ctx : Context) (p : Nat × Move),
        p ∈ (handle_input m ctx).2.2 → p.1 = 0)
    ∧ (∀ (m : TetrisModel) (dt : Rat) (p : Nat × Move),
        p ∈ (ai_decide_step m dt).2 → p.1 = 1)
    ∧ (∀ (m : TetrisModel) (dt : Rat) (p : Nat × Move),
        p ∈ (handle_auto m dt).2 → p.1 = 1 ∨ p = (0, Move.Down)) := by
  refine ⟨?_, ?_, ?_⟩
  · intro m ctx p hp
    exact drain_events_dispatch m ctx.input_events p hp
  · intro m dt p hp
    exact (ai_decide_step_dispatch m dt p hp).1
  · intro m dt p hp
    unfold handle_auto at hp
    simp only [List.mem_append] at hp
    cases hp with
    | inl hp =>
      unfold auto_fall_step at hp
      split at hp
      · simp only [List.mem_singleton] at hp
        exact Or.inr hp
      · simp at hp
    | inr hp =>
      exact Or.inl ((ai_decide_step_dispatch _ dt p hp).1)

/-- Witness for C9: the keyboard k event goes to board 0, a concrete AI step
goes to board 1, and the auto-fall dispatch of handle_auto is the Down to
board 0. -/
theorem dispatch_board_separation_witness :
    (((0, Move.Down) : Nat × Move).1 = 0
       ∧ ((1, Move.Left) : Nat × Move).1 = 1)
    ∧ (((0, Move.Down) : Nat × Move).1 = 1 ∨ ((0, Move.Down) : Nat × Move) = (0, Move.Down)) :=
  ⟨⟨dispatch_board_separation.1 exMBottom { input_events := [Event.Key (KeyCode.Char 'k')] }
      (0, Move.Down) (by decide),
    dispatch_board_separation.2.1 { exM6b with timeout_ai := 1 } 1 (1, Move.Left) (by decide)⟩,
   dispatch_board_separation.2.2 exM6 1 (0, Move.Down) (by decide)⟩

end RustPixel
